import Mathlib

/-!
Verification of the commit-message generator (src/extention.ts).

The TypeScript source is shallowly embedded below.  Strings are Lean
Strings; the JavaScript string operations used by the source (trim,
split, substring, includes, regex tests) are modelled over the
underlying character lists.  The regexes appearing in the source are
alternations of plain literals (with an optional final letter) and
anchored suffixes, so each one is modelled by the corresponding
case-insensitive substring / suffix tests.
-/

namespace CommitGen

/-- Characters of a string, all lower-cased; used to model the
case-insensitive regex tests of the source. -/
def lowerList (s : String) : List Char := s.toList.map Char.toLower

/-- Case-insensitive substring test: models a JS regex test
`/needle/i.test(s)` for a plain literal needle. -/
def containsCI (needle s : String) : Bool :=
  decide (lowerList needle <:+: lowerList s)

/-- Case-insensitive suffix test: models a JS regex test
for an end-anchored literal such as the `\.md$` in the source. -/
def endsWithCI (suffix s : String) : Bool :=
  decide (lowerList suffix <:+ lowerList s)

/-- JavaScript String.prototype.trim: drop whitespace from both ends. -/
def jsTrim (s : String) : String :=
  String.mk (((s.toList.dropWhile Char.isWhitespace).reverse.dropWhile
      Char.isWhitespace).reverse)

/-- JavaScript String.prototype.split with a one-character separator:
the list of (possibly empty) chunks between occurrences of the
separator. -/
def splitOnChar (sep : Char) : List Char → List (List Char)
  | [] => [[]]
  | c :: cs =>
    match splitOnChar sep cs with
    | s :: rest => if c = sep then [] :: s :: rest else (c :: s) :: rest
    | [] => if c = sep then [[], []] else [[c]]

/-- `f.split('/')[0]` of the source: the characters before the first
slash (the whole string when it has no slash). -/
def firstSegment (f : String) : String :=
  String.mk (f.toList.takeWhile (fun c => c ≠ '/'))

/-- `[...new Set(l)]` of the source: deduplication keeping the first
occurrence of each element, in order. -/
def uniqueFirst (l : List String) : List String :=
  l.foldl (fun acc a => if a ∈ acc then acc else acc ++ [a]) []

/-- The regex replace `\.[^/.]+$` of getFileName: strip a final
extension (a dot followed by at least one character that is neither a
dot nor a slash, at the end of the string). -/
def stripExt (s : String) : String :=
  let cs := s.toList.reverse
  let ext := cs.takeWhile (fun c => c ≠ '.' ∧ c ≠ '/')
  match cs.drop ext.length with
  | '.' :: rest => if ext = [] then s else String.mk rest.reverse
  | _ => s

/-- getFileName: `path.split('/').pop() || path`, then strip the final
extension. -/
def getFileName (path : String) : String :=
  let base := String.mk (path.toList.reverse.takeWhile (fun c => c ≠ '/')).reverse
  stripExt (if base = "" then path else base)

/-- The GitChanges record of the source (the ChangeSet of the spec). -/
structure GitChanges where
  modified : List String
  added : List String
  deleted : List String
  renamed : List String
  untracked : List String
deriving DecidableEq, Repr

/-- The CommitStructure record of the source.  Optional fields are
Options; the JS truthiness tests on them are modelled explicitly. -/
structure CommitStructure where
  type : String
  scope : Option String
  subject : String
  body : Option String
  footer : Option String
deriving DecidableEq, Repr

/-- The five categories a status line can be classified into. -/
inductive Cat where
  | modified | added | deleted | renamed | untracked
deriving DecidableEq, Repr

/-- The per-line classification of parseGitStatus.  `statusCode` is
`line.substring(0, 2)`.  In the source the modified test is
`statusCode[0] === 'M' || statusCode[1] === 'M'` and the added /
deleted / renamed tests are `statusCode[0] === 'X' ||
statusCode.includes('X')`; on a string of at most two characters both
forms are exactly membership of the character in the code, which is
how they are written here. -/
def classifyLine (line : String) : Option Cat :=
  let statusCode := line.toList.take 2
  if 'M' ∈ statusCode then some .modified
  else if 'A' ∈ statusCode then some .added
  else if 'D' ∈ statusCode then some .deleted
  else if 'R' ∈ statusCode then some .renamed
  else if statusCode = ['?', '?'] then some .untracked
  else none

/-- `line.substring(3).trim()` of parseGitStatus. -/
def fileOf (line : String) : String :=
  jsTrim (String.mk (line.toList.drop 3))

/-- One iteration of the forEach loop of parseGitStatus: push the file
of the line onto the category selected by classifyLine, or drop it. -/
def step (c : GitChanges) (line : String) : GitChanges :=
  match classifyLine line with
  | some .modified => { c with modified := c.modified ++ [fileOf line] }
  | some .added => { c with added := c.added ++ [fileOf line] }
  | some .deleted => { c with deleted := c.deleted ++ [fileOf line] }
  | some .renamed => { c with renamed := c.renamed ++ [fileOf line] }
  | some .untracked => { c with untracked := c.untracked ++ [fileOf line] }
  | none => c

/-- The empty GitChanges record. -/
def emptyChanges : GitChanges := ⟨[], [], [], [], []⟩

/-- parseGitStatus: trim the status text, split it into lines, drop
empty lines, and classify each line in order. -/
def parseGitStatus (status : String) : GitChanges :=
  let lines := ((splitOnChar '\n' (jsTrim status).toList).map String.mk).filter
    (fun l => l ≠ "")
  lines.foldl step emptyChanges

/-- The totalFiles computation of buildCommitStructure. -/
def totalOf (c : GitChanges) : Nat :=
  c.modified.length + c.added.length + c.deleted.length +
    c.renamed.length + c.untracked.length

/-- The auto-detection part of selectCommitType (the pure part; the
quick-pick among the candidates is an external human choice). -/
def autoDetectType (c : GitChanges) : Option String :=
  let allFiles := c.modified ++ c.added ++ c.deleted ++ c.renamed ++ c.untracked
  if allFiles.any (fun f =>
      containsCI "test" f || containsCI "spec" f || containsCI "__tests__" f) then
    some "test"
  else if allFiles.any (fun f => f = "package.json" || f = "package-lock.json") then
    some "chore"
  else if allFiles.any (fun f => containsCI "readme" f || endsWithCI ".md" f) then
    some "docs"
  else if allFiles.all (fun f =>
      endsWithCI ".css" f || endsWithCI ".scss" f || endsWithCI ".less" f) then
    some "style"
  else none

/-- The common-pattern checks at the end of determineScope. -/
def scopePatterns (allFiles : List String) : Option String :=
  if allFiles.all (fun f => containsCI "component" f) then some "components"
  else if allFiles.all (fun f => containsCI "api" f || containsCI "route" f) then
    some "api"
  else if allFiles.all (fun f => containsCI "util" f || containsCI "helper" f) then
    some "utils"
  else if allFiles.all (fun f => containsCI "type" f) then some "types"
  else none

/-- The allFiles local of determineScope: modified+added+deleted+renamed
(untracked excluded). -/
def scopeFiles (c : GitChanges) : List String :=
  c.modified ++ c.added ++ c.deleted ++ c.renamed

/-- The dirs local of determineScope: first path segment of every file,
empty segments excluded. -/
def scopeDirs (c : GitChanges) : List String :=
  ((scopeFiles c).map firstSegment).filter (fun d => d ≠ "")

/-- determineScope: first-segment uniqueness over
modified+added+deleted+renamed, then the pattern checks. -/
def determineScope (c : GitChanges) : Option String :=
  if (scopeFiles c).isEmpty then none
  else
    match uniqueFirst (scopeDirs c) with
    | [d] => if d ≠ "." then some d else scopePatterns (scopeFiles c)
    | _ => scopePatterns (scopeFiles c)

/-- The dominance test of categorizeFiles.  The source compares
`matchCount >= files.length * 0.6` in JS double arithmetic; for every
length a JS array can have the double comparison agrees with the exact
rational one, which is written here as `3 * length ≤ 5 * matchCount`. -/
def isDominant (pat : String → Bool) (files : List String) : Bool :=
  decide (3 * files.length ≤ 5 * (files.filter pat).length)

/-- The ordered category table of categorizeFiles, each regex replaced
by the equivalent substring / suffix tests. -/
def categoryPatterns : List (String × (String → Bool)) :=
  [("components", fun f => containsCI "component" f),
   ("API routes", fun f =>
     containsCI "api" f || containsCI "route" f || containsCI "controller" f),
   ("utilities", fun f => containsCI "util" f || containsCI "helper" f),
   ("styles", fun f =>
     endsWithCI ".css" f || endsWithCI ".scss" f || endsWithCI ".less" f ||
       containsCI "style" f),
   ("tests", fun f =>
     containsCI "test" f || containsCI "spec" f || containsCI "__tests__" f),
   ("configuration", fun f => containsCI "config" f || containsCI ".config." f),
   ("types", fun f => containsCI "type" f || endsWithCI ".d.ts" f),
   ("documentation", fun f => containsCI "readme" f || containsCI "doc" f),
   ("models", fun f => containsCI "model" f || containsCI "schema" f),
   ("services", fun f => containsCI "service" f)]

/-- The for-loop of categorizeFiles: return the first category of the
table whose pattern is matched by at least 60 percent of the files. -/
def firstDominant (files : List String) : List (String × (String → Bool)) → Option String
  | [] => none
  | e :: rest =>
    if isDominant e.2 files then some e.1 else firstDominant files rest

/-- categorizeFiles. -/
def categorizeFiles (files : List String) : Option String :=
  firstDominant files categoryPatterns

/-- generateSubject: the decision table over the shape of the change
set. -/
def generateSubject (c : GitChanges) (type : String) (totalFiles : Nat) : String :=
  if c.added.length = totalFiles then
    if totalFiles = 1 then "add " ++ getFileName (c.added.headD "")
    else
      match categorizeFiles c.added with
      | some cat => "add " ++ cat
      | none => "add " ++ toString totalFiles ++ " new files"
  else if c.deleted.length = totalFiles then
    if totalFiles = 1 then "remove " ++ getFileName (c.deleted.headD "")
    else "remove " ++ toString totalFiles ++ " files"
  else if c.modified.length = 1 ∧ totalFiles = 1 then
    "update " ++ getFileName (c.modified.headD "")
  else
    let allFiles := c.modified ++ c.added ++ c.deleted
    if totalFiles ≤ 3 then
      "update " ++ String.intercalate ", " ((allFiles.take 3).map getFileName)
    else
      match categorizeFiles allFiles with
      | some cat => "update " ++ cat
      | none =>
        if type = "feat" then "implement new feature"
        else if type = "fix" then "fix multiple issues"
        else if type = "refactor" then "refactor code structure"
        else if type = "docs" then "update documentation"
        else if type = "test" then "add test coverage"
        else if type = "style" then "format code"
        else if type = "chore" then "update dependencies"
        else "update " ++ toString totalFiles ++ " files"

/-- The lines array built by the listing branch of generateBody:
per-category header, indented bullet per path, blank separator.
Untracked files are never listed. -/
def generateBodyLines (c : GitChanges) : List String :=
  (if c.added.length > 0 then
    "Added:" :: (c.added.map (fun f => "  - " ++ f) ++ [""]) else []) ++
  (if c.modified.length > 0 then
    "Modified:" :: (c.modified.map (fun f => "  - " ++ f) ++ [""]) else []) ++
  (if c.deleted.length > 0 then
    "Deleted:" :: (c.deleted.map (fun f => "  - " ++ f) ++ [""]) else []) ++
  (if c.renamed.length > 0 then
    "Renamed:" :: (c.renamed.map (fun f => "  - " ++ f) ++ [""]) else [])

/-- generateSummary: the one-line numeric summary over the four listed
categories, non-zero counts only, in order added, modified, deleted,
renamed. -/
def generateSummary (c : GitChanges) : String :=
  let parts :=
    (if c.added.length > 0 then [toString c.added.length ++ " added"] else []) ++
    (if c.modified.length > 0 then [toString c.modified.length ++ " modified"] else []) ++
    (if c.deleted.length > 0 then [toString c.deleted.length ++ " deleted"] else []) ++
    (if c.renamed.length > 0 then [toString c.renamed.length ++ " renamed"] else [])
  "Changes: " ++ String.intercalate ", " parts

/-- generateBody: numeric summary above the threshold, otherwise the
joined and trimmed listing.  The maxFilesInBody configuration value is
passed as a parameter. -/
def generateBody (c : GitChanges) (totalFiles maxFilesInBody : Nat) : String :=
  if totalFiles > maxFilesInBody then generateSummary c
  else jsTrim (String.intercalate "\n" (generateBodyLines c))

/-- formatCommitMessage.  The JS truthiness tests `structure.scope`,
`structure.body && structure.body.trim()` and the footer test are
modelled by the matches and emptiness checks. -/
def formatCommitMessage (st : CommitStructure) : String :=
  let header := st.type ++
    (match st.scope with
     | some sc => if sc = "" then "" else "(" ++ sc ++ ")"
     | none => "") ++ ": " ++ st.subject
  let withBody :=
    match st.body with
    | some b => if jsTrim b = "" then header else header ++ "\n\n" ++ b
    | none => header
  match st.footer with
  | some f => if jsTrim f = "" then withBody else withBody ++ "\n\n" ++ f
  | none => withBody

/-- An optional string that JS treats as absent-or-blank: missing,
empty, or whitespace only. -/
def optBlank : Option String → Bool
  | none => true
  | some s => jsTrim s == ""

/-- Outcome of one run of the generate command. -/
inductive PipelineResult where
  | noChanges
  | cancelled
  | message (text : String)
deriving DecidableEq, Repr

/-- The command handler of activate followed by buildCommitStructure
and formatCommitMessage.  The external collaborators are parameters:
the human type choice (none = abort of the quick pick), the
maxFilesInBody configuration value, and the externally produced
footer.  A blank status text is rejected before parsing. -/
def runPipeline (status : String) (userChoice : Option String)
    (maxFilesInBody : Nat) (footer : Option String) : PipelineResult :=
  if jsTrim status = "" then .noChanges
  else
    let changes := parseGitStatus status
    match userChoice with
    | none => .cancelled
    | some type =>
      .message (formatCommitMessage
        { type := type
          scope := determineScope changes
          subject := generateSubject changes type (totalOf changes)
          body := some (generateBody changes (totalOf changes) maxFilesInBody)
          footer := footer })

/-- Modelled from the spec (section 4.1): the per-line decision rule on
the two status characters, written exactly as the five prioritised
rules of the spec; compared below with classifyLine of the source. -/
def specClassifyCode (a b : Char) : Option Cat :=
  if a = 'M' ∨ b = 'M' then some .modified
  else if a = 'A' ∨ b = 'A' then some .added
  else if a = 'D' ∨ b = 'D' then some .deleted
  else if a = 'R' ∨ b = 'R' then some .renamed
  else if a = '?' ∧ b = '?' then some .untracked
  else none

/-! ## Helper lemmas -/

theorem determineScope_of_unique (c : GitChanges) (d : String)
    (hne : scopeFiles c ≠ []) (hu : uniqueFirst (scopeDirs c) = [d])
    (hd : d ≠ ".") : determineScope c = some d := by
  unfold determineScope
  rw [if_neg (by simpa [List.isEmpty_iff] using hne), hu]
  simp [hd]

theorem firstDominant_eq_find (files : List String) :
    ∀ l, firstDominant files l =
      (l.find? (fun e => isDominant e.2 files)).map Prod.fst := by
  intro l
  induction l with
  | nil => rfl
  | cons e rest ih =>
    by_cases h : isDominant e.2 files = true
    · simp [firstDominant, h, List.find?_cons_of_pos]
    · rw [firstDominant, if_neg (by simpa using h), ih,
        List.find?_cons_of_neg _ (by simpa using h)]

theorem firstSegment_src_components (s : String) :
    firstSegment ("src/components/" ++ s) = "src" := by
  simp [firstSegment, String.data_append]

theorem containsCI_component_src (s : String) :
    containsCI "component" ("src/components/" ++ s) = true := by
  have h : lowerList "component" <:+: lowerList "src/components/" := by decide
  simp only [containsCI, decide_eq_true_iff, lowerList, String.data_append,
    List.map_append]
  exact h.trans ((List.prefix_append _ _).isInfix)

theorem mem_bodySection {p : Prop} [Decidable p] {header line : String}
    {files : List String}
    (h : line ∈ (if p then header :: (files.map (fun f => "  - " ++ f) ++ [""])
      else [])) :
    line = "" ∨ line = header ∨ ∃ f ∈ files, line = "  - " ++ f := by
  split at h
  · rcases List.mem_cons.1 h with h | h
    · exact Or.inr (Or.inl h)
    · rcases List.mem_append.1 h with h | h
      · obtain ⟨f, hf, hl⟩ := List.mem_map.1 h
        exact Or.inr (Or.inr ⟨f, hf, hl.symm⟩)
      · simp only [List.mem_singleton] at h
        exact Or.inl h
  · simp at h

/-! ## Claim theorems -/

/-- C1: StatusParser classifies every status line by the first matching
rule in the fixed priority order M, A, D, R, exactly-??, drop; a line
whose two status characters are A and M (in either order) goes to
modified only. -/
theorem C1_status_line_priority :
    (∀ (a b : Char) (rest : List Char),
      classifyLine (String.mk (a :: b :: rest)) = specClassifyCode a b) ∧
    (∀ rest : List Char,
      classifyLine (String.mk ('A' :: 'M' :: rest)) = some Cat.modified) ∧
    (∀ rest : List Char,
      classifyLine (String.mk ('M' :: 'A' :: rest)) = some Cat.modified) := by
  refine ⟨?_, ?_, ?_⟩
  · intro a b rest
    have ht : (String.mk (a :: b :: rest)).toList.take 2 = [a, b] := rfl
    simp only [classifyLine, specClassifyCode, ht, List.mem_cons,
      List.not_mem_nil, or_false, List.cons.injEq, and_true]
    have hm : ('M' = a ∨ 'M' = b) ↔ (a = 'M' ∨ b = 'M') := or_congr eq_comm eq_comm
    have ha : ('A' = a ∨ 'A' = b) ↔ (a = 'A' ∨ b = 'A') := or_congr eq_comm eq_comm
    have hd : ('D' = a ∨ 'D' = b) ↔ (a = 'D' ∨ b = 'D') := or_congr eq_comm eq_comm
    have hr : ('R' = a ∨ 'R' = b) ↔ (a = 'R' ∨ b = 'R') := or_congr eq_comm eq_comm
    rw [if_congr hm rfl rfl]
    by_cases h1 : a = 'M' ∨ b = 'M'
    · simp [h1]
    · rw [if_neg h1, if_neg h1, if_congr ha rfl rfl]
      by_cases h2 : a = 'A' ∨ b = 'A'
      · simp [h2]
      · rw [if_neg h2, if_neg h2, if_congr hd rfl rfl]
        by_cases h3 : a = 'D' ∨ b = 'D'
        · simp [h3]
        · rw [if_neg h3, if_neg h3, if_congr hr rfl rfl]
  · intro rest
    have ht : (String.mk ('A' :: 'M' :: rest)).toList.take 2 = ['A', 'M'] := rfl
    simp [classifyLine, ht]
  · intro rest
    have ht : (String.mk ('M' :: 'A' :: rest)).toList.take 2 = ['M', 'A'] := rfl
    simp [classifyLine, ht]

/-- C3 counterexample: on the change set whose only entry is the
modified path README.md, determineScope returns the scope
"README.md" rather than no scope, because `"README.md".split('/')[0]`
is the whole file name and it is the single distinct first segment. -/
theorem C3_counterexample_readme_scope :
    determineScope ⟨["README.md"], [], [], [], []⟩ = some "README.md" ∧
    determineScope ⟨["README.md"], [], [], [], []⟩ ≠ none := by
  refine ⟨by decide, by decide⟩

/-- C3 amended: for the change set with the single modified path
README.md the auto-detected suggestion is docs and the subject is
"update README", but the resolved scope is "README.md" (the slashless
path itself is its first segment), not no scope. -/
theorem C3_amended_readme_scenario :
    autoDetectType ⟨["README.md"], [], [], [], []⟩ = some "docs" ∧
    (∀ t : String, generateSubject ⟨["README.md"], [], [], [], []⟩ t
      (totalOf ⟨["README.md"], [], [], [], []⟩) = "update README") ∧
    determineScope ⟨["README.md"], [], [], [], []⟩ = some "README.md" := by
  refine ⟨by decide, fun t => rfl, by decide⟩

/-- C7 counterexample: the raw status input "XX foo" parses into no
category at all, yet the pipeline does not stop with the nothing-to-do
report: it still produces a commit message (the vacuous 60 percent
dominance of the empty pool even makes the subject "add components"). -/
theorem C7_counterexample_unparsed_input :
    parseGitStatus "XX foo" = emptyChanges ∧
    runPipeline "XX foo" (some "chore") 20 none =
      .message "chore: add components" := by
  refine ⟨by decide, by decide⟩

/-- C7 amended: the pipeline reports nothing to do exactly when the
raw status text is blank (empty after trimming); a non-blank input
whose lines all fail to classify still runs the full pipeline and
produces a message. -/
theorem C7_amended_blank_input_report :
    ∀ (s : String) (uc : Option String) (m : Nat) (f : Option String),
      runPipeline s uc m f = .noChanges ↔ jsTrim s = "" := by
  intro s uc m f
  by_cases h : jsTrim s = ""
  · simp [runPipeline, h]
  · cases uc <;> simp [runPipeline, h]

/-- C7 amended, witness. -/
theorem C7_amended_blank_input_report_witness :
    runPipeline "  \n " (some "fix") 20 none = .noChanges :=
  (C7_amended_blank_input_report "  \n " (some "fix") 20 none).2 (by decide)

/-- C8: whenever the first path segments of the (non-empty) pool of
modified, added, deleted and renamed paths, with empty segments
excluded, reduce to exactly one distinct value other than ".",
determineScope returns that value. -/
theorem C8_unique_first_segment_scope :
    ∀ (c : GitChanges) (d : String), scopeFiles c ≠ [] →
      uniqueFirst (scopeDirs c) = [d] → d ≠ "." →
      determineScope c = some d :=
  fun c d hne hu hd => determineScope_of_unique c d hne hu hd

/-- C8 witness. -/
theorem C8_unique_first_segment_scope_witness :
    determineScope ⟨["src/a.ts"], ["src/b.ts"], [], [], []⟩ = some "src" :=
  C8_unique_first_segment_scope ⟨["src/a.ts"], ["src/b.ts"], [], [], []⟩ "src"
    (by decide) (by decide) (by decide)

/-- C10: on the empty file pool the dominant-category search returns
"components" (the at-least-60-percent test is vacuous on zero files),
so every change set of more than three files that are all renamed or
untracked gets the subject "update components" even though no file is
inspected. -/
theorem C10_vacuous_dominance_subject :
    categorizeFiles [] = some "components" ∧
    ∀ (r u : List String) (t : String), 3 < r.length + u.length →
      generateSubject ⟨[], [], [], r, u⟩ t (totalOf ⟨[], [], [], r, u⟩) =
        "update components" := by
  refine ⟨by decide, ?_⟩
  intro r u t h
  have hc : categorizeFiles ([] : List String) = some "components" := by decide
  have h1 : ¬ ((0 : Nat) = r.length + u.length) := by omega
  have h2 : ¬ (r.length + u.length ≤ 3) := by omega
  simp [generateSubject, totalOf, h1, h2, hc]

/-- C10 witness. -/
theorem C10_vacuous_dominance_subject_witness :
    generateSubject ⟨[], [], [], ["a", "b", "c", "d"], []⟩ "fix"
      (totalOf ⟨[], [], [], ["a", "b", "c", "d"], []⟩) = "update components" :=
  C10_vacuous_dominance_subject.2 ["a", "b", "c", "d"] [] "fix" (by decide)

/-- C2: a category is dominant exactly when its match count is at
least 60 percent of the pool size; 3 matches out of 5 files are
dominant, 5 out of 9 are not; categorizeFiles returns the first
dominant category of the fixed table, and none when no category is
dominant. -/
theorem C2_dominance_threshold :
    (∀ (files : List String) (pat : String → Bool), files ≠ [] →
      (isDominant pat files = true ↔
        (60 : ℚ) / 100 * files.length ≤ ((files.filter pat).length : ℚ))) ∧
    (∀ (files : List String) (pat : String → Bool), files.length = 5 →
      (files.filter pat).length = 3 → isDominant pat files = true) ∧
    (∀ (files : List String) (pat : String → Bool), files.length = 9 →
      (files.filter pat).length = 5 → isDominant pat files = false) ∧
    (∀ files : List String, categorizeFiles files =
      (categoryPatterns.find? (fun e => isDominant e.2 files)).map Prod.fst) ∧
    (∀ files : List String,
      (∀ e ∈ categoryPatterns, isDominant e.2 files = false) →
      categorizeFiles files = none) := by
  refine ⟨?_, ?_, ?_, ?_, ?_⟩
  · intro files pat _
    rw [isDominant, decide_eq_true_iff,
      show (60 : ℚ) / 100 = 3 / 5 by norm_num, div_mul_eq_mul_div,
      div_le_iff₀ (show (0 : ℚ) < 5 by norm_num),
      mul_comm ((files.filter pat).length : ℚ) 5]
    exact_mod_cast Iff.rfl
  · intro files pat h1 h2
    simp [isDominant, h1, h2]
  · intro files pat h1 h2
    simp [isDominant, h1, h2]
  · intro files
    exact firstDominant_eq_find files categoryPatterns
  · intro files h
    rw [categorizeFiles, firstDominant_eq_find files categoryPatterns]
    rw [List.find?_eq_none.2 (fun e he => by simp [h e he])]
    rfl

/-- C2 witness. -/
theorem C2_dominance_threshold_witness :
    isDominant (fun f => containsCI "a" f) ["a1", "a2", "a3", "x", "y"] = true :=
  C2_dominance_threshold.2.1 ["a1", "a2", "a3", "x", "y"]
    (fun f => containsCI "a" f) (by decide) (by decide)

/-- C5 counterexample: a body consisting of one space character is a
non-empty string, yet formatCommitMessage does not append it: the
source appends the body only when it is non-blank after trimming. -/
theorem C5_counterexample_blank_body :
    formatCommitMessage ⟨"feat", none, "s", some " ", none⟩ = "feat: s" ∧
    (" " : String) ≠ "" ∧
    "feat: s" ≠ "feat: s" ++ "\n\n" ++ " " := by
  refine ⟨by decide, by decide, by decide⟩

/-- C5 amended: with no body and no footer the formatted message is
exactly the header type(scope): subject (the scope parenthesised only
when present and non-empty, nothing trailing); a blank (empty or
whitespace-only) body or footer is dropped; a body or footer that is
non-blank after trimming is appended after one blank line. -/
theorem C5_amended_header_format :
    (∀ t s : String,
      formatCommitMessage ⟨t, none, s, none, none⟩ = t ++ ": " ++ s) ∧
    (∀ t sc s : String, sc ≠ "" →
      formatCommitMessage ⟨t, some sc, s, none, none⟩ =
        t ++ "(" ++ sc ++ ")" ++ ": " ++ s) ∧
    (∀ (t s : String) (sc b f : Option String),
      optBlank b = true → optBlank f = true →
      formatCommitMessage ⟨t, sc, s, b, f⟩ =
        formatCommitMessage ⟨t, sc, s, none, none⟩) ∧
    (∀ (t s b : String) (sc : Option String), jsTrim b ≠ "" →
      formatCommitMessage ⟨t, sc, s, some b, none⟩ =
        formatCommitMessage ⟨t, sc, s, none, none⟩ ++ "\n\n" ++ b) ∧
    (∀ (t s f : String) (sc : Option String) (b : Option String),
      jsTrim f ≠ "" →
      formatCommitMessage ⟨t, sc, s, b, some f⟩ =
        formatCommitMessage ⟨t, sc, s, b, none⟩ ++ "\n\n" ++ f) := by
  refine ⟨?_, ?_, ?_, ?_, ?_⟩
  · intro t s
    simp [formatCommitMessage, String.ext_iff, String.data_append]
  · intro t sc s h
    simp [formatCommitMessage, h, String.ext_iff, String.data_append]
  · intro t s sc b f hb hf
    cases b <;> cases f <;> simp_all [formatCommitMessage, optBlank]
  · intro t s b sc h
    simp [formatCommitMessage, h]
  · intro t s f sc b h
    cases b <;> simp [formatCommitMessage, h]

/-- C5 amended, witness. -/
theorem C5_amended_header_format_witness :
    formatCommitMessage ⟨"feat", none, "s", some "body", none⟩ =
      formatCommitMessage ⟨"feat", none, "s", none, none⟩ ++ "\n\n" ++ "body" :=
  C5_amended_header_format.2.2.2.1 "feat" "s" "body" none (by decide)

/-- C6: when the total file count exceeds the maxFilesInBody
threshold, generateBody returns the one-line numeric summary of
generateSummary; on 12 added, 10 modified and 2 deleted files with
threshold 20 the body is exactly
"Changes: 12 added, 10 modified, 2 deleted" (zero categories
omitted, comma-joined, in order added, modified, deleted, renamed). -/
theorem C6_over_threshold_summary :
    (∀ (c : GitChanges) (total maxF : Nat), maxF < total →
      generateBody c total maxF = generateSummary c) ∧
    generateBody ⟨List.replicate 10 "m", List.replicate 12 "a", ["d1", "d2"], [], []⟩
      (totalOf ⟨List.replicate 10 "m", List.replicate 12 "a", ["d1", "d2"], [], []⟩)
      20 = "Changes: 12 added, 10 modified, 2 deleted" := by
  refine ⟨?_, by decide⟩
  intro c total maxF h
  simp [generateBody, h]

/-- C6 witness. -/
theorem C6_over_threshold_summary_witness :
    generateBody emptyChanges 21 20 = generateSummary emptyChanges :=
  C6_over_threshold_summary.1 emptyChanges 21 20 (by decide)

/-- C9: the body never shows untracked files: generateBody is
independent of the untracked field, and every line of the per-category
listing is blank, one of the four fixed headers, or a bullet for a
path of the added, modified, deleted or renamed categories. -/
theorem C9_body_ignores_untracked :
    (∀ (md a d r u v : List String) (total maxF : Nat),
      generateBody ⟨md, a, d, r, u⟩ total maxF =
        generateBody ⟨md, a, d, r, v⟩ total maxF) ∧
    (∀ (c : GitChanges) (line : String), line ∈ generateBodyLines c →
      line = "" ∨
      line ∈ (["Added:", "Modified:", "Deleted:", "Renamed:"] : List String) ∨
      ∃ f, f ∈ c.added ++ c.modified ++ c.deleted ++ c.renamed ∧
        line = "  - " ++ f) := by
  refine ⟨fun md a d r u v total maxF => rfl, ?_⟩
  intro c line h
  simp only [generateBodyLines, List.mem_append] at h
  have collect : ∀ header : String,
      header ∈ (["Added:", "Modified:", "Deleted:", "Renamed:"] : List String) →
      ∀ pool : List String,
      (∀ f, f ∈ pool → f ∈ c.added ++ c.modified ++ c.deleted ++ c.renamed) →
      (line = "" ∨ line = header ∨ ∃ f ∈ pool, line = "  - " ++ f) →
      line = "" ∨
      line ∈ (["Added:", "Modified:", "Deleted:", "Renamed:"] : List String) ∨
      ∃ f, f ∈ c.added ++ c.modified ++ c.deleted ++ c.renamed ∧
        line = "  - " ++ f := by
    rintro header hh pool hp (h | h | ⟨f, hf, hl⟩)
    · exact Or.inl h
    · exact Or.inr (Or.inl (h ▸ hh))
    · exact Or.inr (Or.inr ⟨f, hp f hf, hl⟩)
  rcases h with ((h | h) | h) | h
  · exact collect "Added:" (by simp) c.added
      (fun f hf => by simp [hf]) (mem_bodySection h)
  · exact collect "Modified:" (by simp) c.modified
      (fun f hf => by simp [hf]) (mem_bodySection h)
  · exact collect "Deleted:" (by simp) c.deleted
      (fun f hf => by simp [hf]) (mem_bodySection h)
  · exact collect "Renamed:" (by simp) c.renamed
      (fun f hf => by simp [hf]) (mem_bodySection h)

/-- C9 witness. -/
theorem C9_body_ignores_untracked_witness :
    ("Modified:" : String) = "" ∨
    ("Modified:" : String) ∈
      (["Added:", "Modified:", "Deleted:", "Renamed:"] : List String) ∨
    ∃ f, f ∈ (⟨["m.ts"], [], [], [], ["u.ts"]⟩ : GitChanges).added ++
        (⟨["m.ts"], [], [], [], ["u.ts"]⟩ : GitChanges).modified ++
        (⟨["m.ts"], [], [], [], ["u.ts"]⟩ : GitChanges).deleted ++
        (⟨["m.ts"], [], [], [], ["u.ts"]⟩ : GitChanges).renamed ∧
      ("Modified:" : String) = "  - " ++ f :=
  C9_body_ignores_untracked.2 ⟨["m.ts"], [], [], [], ["u.ts"]⟩ "Modified:"
    (by decide)

/-- C4: for every change set of exactly five modified paths under
src/components/, the scope resolves to "src" and the subject to
"update components": with five files the three-or-fewer comma-join
rule does not apply, so the dominant-category rule decides. -/
theorem C4_five_component_files :
    ∀ s1 s2 s3 s4 s5 t : String,
      determineScope ⟨["src/components/" ++ s1, "src/components/" ++ s2,
        "src/components/" ++ s3, "src/components/" ++ s4,
        "src/components/" ++ s5], [], [], [], []⟩ = some "src" ∧
      generateSubject ⟨["src/components/" ++ s1, "src/components/" ++ s2,
        "src/components/" ++ s3, "src/components/" ++ s4,
        "src/components/" ++ s5], [], [], [], []⟩ t
        (totalOf ⟨["src/components/" ++ s1, "src/components/" ++ s2,
          "src/components/" ++ s3, "src/components/" ++ s4,
          "src/components/" ++ s5], [], [], [], []⟩) = "update components" := by
  intro s1 s2 s3 s4 s5 t
  constructor
  · apply determineScope_of_unique _ "src"
    · simp [scopeFiles]
    · simp [scopeDirs, scopeFiles, firstSegment_src_components, uniqueFirst]
    · decide
  · have hcat : categorizeFiles ["src/components/" ++ s1, "src/components/" ++ s2,
        "src/components/" ++ s3, "src/components/" ++ s4,
        "src/components/" ++ s5] = some "components" := by
      simp [categorizeFiles, firstDominant, categoryPatterns, isDominant,
        List.filter, containsCI_component_src]
    simp [generateSubject, totalOf, hcat]

end CommitGen
